import Mathlib

/-!
Shallow embedding of the query-view composition engine of `dbTable.py`
(classes `dbTable` and `Column`), translated directly from the source.

Modelling decisions, all stated next to the definition they concern:
* Python `dict`s keyed by strings are embedded as insertion-ordered
  association lists (`List (String × Column)`), matching Python 3 dict
  iteration order.
* `dbTable.__eq__` compares only the table `name`; every place the source
  compares tables (`c1.table == c2.table`, `column.table != self`) is
  therefore embedded as comparison of the owning table's name, and
  `Column.table` is embedded as that name.
* Exceptions (`ValueError`, `KeyError`, `TypeError`) are embedded as `none`
  of an `Option` result.
* Machine integers are `Int` (Python ints are unbounded, so no wrap-around
  modelling is needed).
* Python floats appearing as literals are modelled only at integral values
  (`Operand.floatL n` denotes the float `n.0`); no claim quantifies over
  non-integral floats.
-/

/-- The column type tags of the source: `pytypes = {float:"REAL", int:"INTEGER", str:"TEXT"}`.
There is no Boolean tag anywhere in the source. -/
inductive PyType
  | int
  | float
  | str
deriving DecidableEq, Repr

/-- Class `Column`: `colexpr` is the rendered SQL fragment, `table` the owning
table (embedded as its name, since `dbTable.__eq__` compares names only),
`type` the Python type tag. -/
structure Column where
  colexpr : String
  table : String
  type : PyType
deriving DecidableEq, Repr

/-- An operand of `Column.operate`: either a `Column` or a raw Python literal.
`floatL n` stands for the Python float with integral value `n`. -/
inductive Operand
  | col (c : Column)
  | intL (n : Int)
  | floatL (n : Int)
  | strL (s : String)
deriving DecidableEq, Repr

/-- Python `str(x)` for the operands we model. `str` of a `Column` falls back
to `Column.__repr__`, which returns `colexpr`. -/
def pyStr : Operand → String
  | .intL n => toString n
  | .floatL n => toString n ++ ".0"
  | .strL s => s
  | .col c => c.colexpr

/-- Python `c in s` for characters of a string. -/
def strHas (s : String) (c : Char) : Bool := decide (c ∈ s.data)

/-- Single-quoted-mode escaping of one character in CPython `repr` of a string:
backslash and the quote character are backslash-escaped. Control-character
escaping (`\n` etc.) is outside the modelled domain; theorems that quantify
over string contents carry a printability hypothesis. -/
def escSingle (c : Char) : List Char :=
  if c = '\\' then ['\\', '\\'] else if c = '\'' then ['\\', '\''] else [c]

/-- Double-quoted-mode escaping of one character in CPython `repr` of a string
(taken when the string contains a single quote but no double quote): only the
backslash is escaped. -/
def escDouble (c : Char) : List Char :=
  if c = '\\' then ['\\', '\\'] else [c]

/-- CPython `repr` of a string restricted to printable characters: quote with
`'`, unless the string contains `'` and no `"`, in which case quote with `"`. -/
def pyStrRepr (s : String) : String :=
  if strHas s '\'' && !(strHas s '"') then
    String.mk ('"' :: s.data.flatMap escDouble ++ ['"'])
  else
    String.mk ('\'' :: s.data.flatMap escSingle ++ ['\''])

/-- Python `repr(x)` for the operands we model; `repr` of a `Column` is
`Column.__repr__`, i.e. `colexpr`. -/
def pyRepr : Operand → String
  | .intL n => toString n
  | .floatL n => toString n ++ ".0"
  | .strL s => pyStrRepr s
  | .col c => c.colexpr

/-- Python coercion `t(x)` as used by `Column.operate` (`c1.type(c2)`):
`int`/`float`/`str` applied to an operand; failure (`TypeError`/`ValueError`)
is `none`. `int` and `float` of a `Column` raise; `str` of anything succeeds.
`int(string)` is modelled by `String.toInt?` (sign and digits; surrounding
whitespace is outside the modelled domain), and `float(string)` only at
integral values. -/
def coerce (t : PyType) (x : Operand) : Option Operand :=
  match t with
  | .int =>
    match x with
    | .intL n => some (.intL n)
    | .floatL n => some (.intL n)
    | .strL s => (String.toInt? s).map .intL
    | .col _ => none
  | .float =>
    match x with
    | .intL n => some (.floatL n)
    | .floatL n => some (.floatL n)
    | .strL s => (String.toInt? s).map .floatL
    | .col _ => none
  | .str => some (.strL (pyStr x))

/-- The branch of `Column.operate` taken when `c1` is a `Column` (source lines
`if isinstance(c1,Column): try: c1.type(c2) ...`): coerce `c2` to `c1.type`;
on success either render text concatenation (when `c1.type == str` and
`strcheck`) or substitute `repr` of the coerced literal into the template;
on failure raise `ValueError`. -/
def operateLit1 (a : Column) (x : Operand) (tpl : String → String → String)
    (strcheck : Bool) : Option Column :=
  match coerce a.type x with
  | none => none
  | some v =>
    if a.type = PyType.str ∧ strcheck = true then
      some ⟨"(" ++ a.colexpr ++ " || " ++ pyRepr v ++ ")", a.table, a.type⟩
    else
      some ⟨tpl a.colexpr (pyRepr v), a.table, a.type⟩

/-- The branch of `Column.operate` taken when only `c2` is a `Column`. In the
`c2.type == str and strcheck` sub-branch the source reads `c1.colexpr` and
`c1.type` on `c1`, which here is a raw literal, so that sub-branch always
raises (`AttributeError` caught as `ValueError`); it is embedded as `none`. -/
def operateLit2 (x : Operand) (b : Column) (tpl : String → String → String)
    (strcheck : Bool) : Option Column :=
  match coerce b.type x with
  | none => none
  | some v =>
    if b.type = PyType.str ∧ strcheck = true then
      none
    else
      some ⟨tpl (pyRepr v) b.colexpr, b.table, b.type⟩

/-- `Column.operate(c1, c2, expr, strcheck)`: both-`Column` operands with equal
type and equal table combine through the template; otherwise the literal paths
above apply; two non-`Column` operands fall off the end of the function
(Python returns `None`, embedded as `none`). -/
def Column.operate (c1 c2 : Operand) (tpl : String → String → String)
    (strcheck : Bool) : Option Column :=
  match c1, c2 with
  | .col a, .col b =>
    if a.type = b.type ∧ a.table = b.table then
      some ⟨tpl a.colexpr b.colexpr, a.table, a.type⟩
    else
      operateLit1 a (.col b) tpl strcheck
  | .col a, _ => operateLit1 a c2 tpl strcheck
  | _, .col b => operateLit2 c1 b tpl strcheck
  | _, _ => none

/-- The operators `Column` overloads, with the template string and the
`strcheck` flag each one passes to `Column.operate`. -/
inductive Op
  | add
  | sub
  | mul
  | div
  | lt
  | le
  | eq
  | ne
  | ge
  | gt
  | andOp
  | orOp
deriving DecidableEq, Repr

/-- The format template each overloaded operator passes to `Column.operate`
(`"(%s + %s)"`, `"(%s*%s)"`, `"(%s AND %s)"`, ...). -/
def Op.tpl : Op → String → String → String
  | .add => fun a b => "(" ++ a ++ " + " ++ b ++ ")"
  | .sub => fun a b => "(" ++ a ++ " - " ++ b ++ ")"
  | .mul => fun a b => "(" ++ a ++ "*" ++ b ++ ")"
  | .div => fun a b => "(" ++ a ++ " / " ++ b ++ ")"
  | .lt => fun a b => "(" ++ a ++ " < " ++ b ++ ")"
  | .le => fun a b => "(" ++ a ++ " <= " ++ b ++ ")"
  | .eq => fun a b => "(" ++ a ++ " = " ++ b ++ ")"
  | .ne => fun a b => "(" ++ a ++ " != " ++ b ++ ")"
  | .ge => fun a b => "(" ++ a ++ " >= " ++ b ++ ")"
  | .gt => fun a b => "(" ++ a ++ " > " ++ b ++ ")"
  | .andOp => fun a b => "(" ++ a ++ " AND " ++ b ++ ")"
  | .orOp => fun a b => "(" ++ a ++ " OR " ++ b ++ ")"

/-- The `strcheck` argument each operator passes: `True` for `+ - * /`,
omitted (`False`) for the comparison and logical operators. -/
def Op.strcheck : Op → Bool
  | .add => true
  | .sub => true
  | .mul => true
  | .div => true
  | _ => false

/-- `Column.apply(self, function)`: wrap as `function(colexpr)`; the type tag
is copied unchanged for every function name, `COUNT` included. -/
def Column.apply (c : Column) (function : String) : Column :=
  ⟨function ++ "(" ++ c.colexpr ++ ")", c.table, c.type⟩

/-- The persisted options dictionary of a `dbTable`, as a record of optional
entries: presence of the Python dict key is `Option.isSome`. The `'where'` key
is the field `whereC` (`where` is reserved in Lean). The `'columns'` key that
`__init__` stores for freshly introspected base tables is only ever read by
`save` (schema I/O, out of the modelled core) and never by `formulate` or the
combinators, so it is not carried here. -/
structure Options where
  limit : Option Int
  whereC : Option Column
  group : Option Column
  having : Option Column
  sort : Option (Column × String)
deriving DecidableEq, Repr

/-- An options dictionary with no keys set. -/
def emptyOptions : Options := ⟨none, none, none, none, none⟩

/-- The `'columns'` entry of the one-shot override bag of `formulate`: either a
raw string passed through verbatim (used internally for `COUNT(*)`) or a list
of `Column`s. -/
inductive ColsOverride
  | str (s : String)
  | list (cs : List Column)
deriving DecidableEq, Repr

/-- The one-shot override bag passed to `formulate` (its `options` parameter),
again with dict-key presence as `Option.isSome`. -/
structure FOptions where
  limit : Option Int
  whereC : Option Column
  columns : Option ColsOverride
  group : Option Column
  having : Option Column
  sort : Option (Column × String)
deriving DecidableEq, Repr

/-- The empty override bag (the default `options={}` of `formulate`). -/
def emptyF : FOptions := ⟨none, none, none, none, none, none⟩

/-- Python dict lookup `d[k]` on an insertion-ordered association list,
returning `none` for a missing key. -/
def dictGet? (d : List (String × Column)) (k : String) : Option Column :=
  (d.find? (fun p => p.1 == k)).map (fun p => p.2)

/-- Python `k in d` for a dict. -/
def dictHasKey (d : List (String × Column)) (k : String) : Bool :=
  (dictGet? d k).isSome

/-- Python dict assignment `d[k] = v`: an existing key keeps its position and
gets the new value, a new key is appended. -/
def dictInsert (d : List (String × Column)) (k : String) (v : Column) :
    List (String × Column) :=
  if dictHasKey d k then d.map (fun p => if p.1 == k then (k, v) else p)
  else d ++ [(k, v)]

/-- The dict comprehension `{col: self.columns[col] for col in columns}` of
`dbTable.select`. The `none` branch is unreachable under `select`'s membership
pre-check (Python would raise `KeyError` earlier). -/
def buildDict (src : List (String × Column)) (names : List String) :
    List (String × Column) :=
  names.foldl (fun acc n =>
    match dictGet? src n with
    | some c => dictInsert acc n c
    | none => acc) []

/-- Class `dbTable`: base relation `name`, the current projection dict
`columns`, the persisted `options` dict, and the lazily memoized row count
`length` (`None` at construction). The `db` connection field is an external
collaborator with no bearing on the modelled core and is omitted. -/
structure dbTable where
  name : String
  columns : List (String × Column)
  options : Options
  length : Option Int
deriving DecidableEq, Repr

/-- `dbTable.formulate(self, options={})`. Faithful to the source, including
its two missing-`else` slips: when both the persisted options and the override
carry a `'limit'` (resp. a `'where'`), the `min` (resp. the `AND`-merge) is
computed and then immediately overwritten by the persisted value. The
`AND`-merge is still evaluated, so its failure (a `ValueError` from
`Column.operate`) propagates: the result is an `Option`. -/
def dbTable.formulate (t : dbTable) (options : FOptions) : Option String :=
  let limit : String :=
    match t.options.limit, options.limit with
    | some l, some m =>
      let _overwritten := "LIMIT " ++ toString (min m l)
      "LIMIT " ++ toString l
    | some l, none => "LIMIT " ++ toString l
    | none, some m => "LIMIT " ++ toString m
    | none, none => ""
  let whereR : Option String :=
    match t.options.whereC, options.whereC with
    | some w, some ov =>
      (Column.operate (.col w) (.col ov) Op.andOp.tpl false).map
        (fun _merged => "WHERE " ++ w.colexpr)
    | some w, none => some ("WHERE " ++ w.colexpr)
    | none, some ov => some ("WHERE " ++ ov.colexpr)
    | none, none => some ""
  let cols : String :=
    match options.columns with
    | some (.str s) => s
    | some (.list cs) => String.intercalate "," (cs.map (fun c => c.colexpr))
    | none => String.intercalate "," (t.columns.map (fun p => p.2.colexpr))
  let group : String :=
    match options.group with
    | some g =>
      "GROUP BY " ++ g.colexpr ++ " " ++
        (match options.having with
         | some hv => " HAVING " ++ hv.colexpr
         | none => "")
    | none =>
      match t.options.group with
      | some g =>
        "GROUP BY " ++ g.colexpr ++
          (match t.options.having with
           | some hv => " HAVING " ++ hv.colexpr
           | none => "")
      | none => ""
  let sort : String :=
    match options.sort with
    | some (c, d) => "ORDER BY " ++ c.colexpr ++ " " ++ d
    | none =>
      match t.options.sort with
      | some (c, d) => "ORDER BY " ++ c.colexpr ++ " " ++ d
      | none => ""
  whereR.map (fun w =>
    "SELECT " ++ cols ++ " FROM " ++ t.name ++ " " ++ w ++ " " ++ group ++
      " " ++ sort ++ " " ++ limit)

/-- `dbTable.select(self, columns)`: every requested name must be a key of the
current projection (else `KeyError`); the new table gets the narrowed dict, a
copy of the options, and a fresh `length = None`. -/
def dbTable.select (t : dbTable) (names : List String) : Option dbTable :=
  if names.all (fun n => dictHasKey t.columns n) then
    some ⟨t.name, buildDict t.columns names, t.options, none⟩
  else none

/-- `dbTable.where(self, column)`: the predicate must belong to this table
(name equality via `dbTable.__eq__`); an already-present `'where'` entry is
`AND`-merged through `Column.__and__`, whose failure propagates. -/
def dbTable.where_ (t : dbTable) (column : Column) : Option dbTable :=
  if column.table = t.name then
    match t.options.whereC with
    | some w =>
      (Column.operate (.col w) (.col column) Op.andOp.tpl false).map
        (fun merged =>
          ⟨t.name, t.columns, { t.options with whereC := some merged }, none⟩)
    | none =>
      some ⟨t.name, t.columns, { t.options with whereC := some column }, none⟩
  else none

/-- `dbTable.sort(self, column, descending=False)`: a string argument is
resolved through the projection dict; the resolved `Column` must belong to
this table; the `'sort'` entry is replaced by the `(column, direction)` pair. -/
def dbTable.sort (t : dbTable) (column : String ⊕ Column) (descending : Bool) :
    Option dbTable :=
  let desc := if descending then "DESC" else "ASC"
  let resolved : Option Column :=
    match column with
    | .inl s => dictGet? t.columns s
    | .inr c => some c
  match resolved with
  | some c =>
    if c.table = t.name then
      some ⟨t.name, t.columns, { t.options with sort := some (c, desc) }, none⟩
    else none
  | none => none

/-- `dbTable.group(self, column, having=None, collect=None)`: the key resolves
as in `sort`; a `having` that is not a `Column` of this table is silently
dropped (no error in the source); with `collect` every projected column is
wrapped through `Column.apply`. -/
def dbTable.group (t : dbTable) (column : String ⊕ Column)
    (having : Option Column) (collect : Option String) : Option dbTable :=
  let resolved : Option Column :=
    match column with
    | .inl s => dictGet? t.columns s
    | .inr c => some c
  match resolved with
  | some c =>
    if c.table = t.name then
      let opts1 := { t.options with group := some c }
      let opts2 :=
        match having with
        | some hv =>
          if hv.table = t.name then { opts1 with having := some hv } else opts1
        | none => opts1
      let cols :=
        match collect with
        | some f => t.columns.map (fun p => (p.1, p.2.apply f))
        | none => t.columns
      some ⟨t.name, cols, opts2, none⟩
    else none
  | none => none

/-- The statement `dbTable.__len__` executes when the memoized count is unset:
a derived-table `COUNT(*)` wrapper when a `'group'` is persisted, else
`formulate({"columns": "COUNT(*)"})`. Always `some`: with no override
`'where'`, `formulate` cannot raise. -/
def dbTable.lenQuery (t : dbTable) : Option String :=
  if (t.options.group).isSome then
    (t.formulate emptyF).map
      (fun s => "WITH temp as (" ++ s ++ ") SELECT COUNT(*) from temp")
  else
    t.formulate ⟨none, none, some (.str "COUNT(*)"), none, none, none⟩

/-- `dbTable.__len__` against an execution oracle `ex` mapping a statement to
the integer its first result cell holds. Python's `if not self.length` treats
both `None` and a cached `0` as unset. -/
def dbTable.len (t : dbTable) (ex : String → Int) : Option Int :=
  match t.length with
  | some n => if n ≠ 0 then some n else (t.lenQuery).map ex
  | none => (t.lenQuery).map ex

/-!
Heap-instrumented view of the combinators, for the copy-on-write claim. Python
dicts are mutable heap cells; each combinator copies the receiver's two dicts
(`dict(self.options)`, `dict(self.columns)` or a fresh comprehension), mutates
only the copies, and hands them to `dbTable.__init__`, which stores the
references without writing into them (the `columns` argument is always a dict
here, so the `self.options['columns'] = ...` branch of `__init__` is not
taken). The heap holds the contents of every options dict and every columns
dict at a numeric address; copying a dict is allocating a fresh address with
the same contents.
-/

/-- A heap of options dicts and columns dicts; every address at or above
`next` is free. -/
structure Heap where
  opts : Nat → Options
  cols : Nat → List (String × Column)
  next : Nat

/-- A `dbTable` object as it sits on the heap: its two dict fields are
addresses. -/
structure TableRef where
  name : String
  optionsRef : Nat
  columnsRef : Nat
  length : Option Int

/-- `dbTable(self.db, name, columns, options)` as called by every combinator:
the caller's freshly built dicts are allocated at the two next free addresses
and the new object points at them; `length` starts as `None`. -/
def mkTableH (h : Heap) (name : String) (cd : List (String × Column))
    (od : Options) : Heap × TableRef :=
  (⟨fun i => if i = h.next then od else h.opts i,
    fun i => if i = h.next + 1 then cd else h.cols i,
    h.next + 2⟩,
   ⟨name, h.next, h.next + 1, none⟩)

/-- Heap version of `dbTable.select`. -/
def selectH (h : Heap) (t : TableRef) (names : List String) :
    Option (Heap × TableRef) :=
  if names.all (fun n => dictHasKey (h.cols t.columnsRef) n) then
    some (mkTableH h t.name (buildDict (h.cols t.columnsRef) names)
      (h.opts t.optionsRef))
  else none

/-- Heap version of `dbTable.where`. -/
def whereH (h : Heap) (t : TableRef) (column : Column) :
    Option (Heap × TableRef) :=
  if column.table = t.name then
    (match (h.opts t.optionsRef).whereC with
     | some w => Column.operate (.col w) (.col column) Op.andOp.tpl false
     | none => some column).map
      (fun w => mkTableH h t.name (h.cols t.columnsRef)
        { h.opts t.optionsRef with whereC := some w })
  else none

/-- Heap version of `dbTable.sort`. -/
def sortH (h : Heap) (t : TableRef) (column : String ⊕ Column)
    (descending : Bool) : Option (Heap × TableRef) :=
  match (match column with
         | .inl s => dictGet? (h.cols t.columnsRef) s
         | .inr c => some c) with
  | some c =>
    if c.table = t.name then
      some (mkTableH h t.name (h.cols t.columnsRef)
        { h.opts t.optionsRef with
            sort := some (c, if descending then "DESC" else "ASC") })
    else none
  | none => none

/-- Heap version of `dbTable.group`. -/
def groupH (h : Heap) (t : TableRef) (column : String ⊕ Column)
    (having : Option Column) (collect : Option String) :
    Option (Heap × TableRef) :=
  match (match column with
         | .inl s => dictGet? (h.cols t.columnsRef) s
         | .inr c => some c) with
  | some c =>
    if c.table = t.name then
      some (mkTableH h t.name
        (match collect with
         | some f => (h.cols t.columnsRef).map (fun p => (p.1, p.2.apply f))
         | none => h.cols t.columnsRef)
        (match having with
         | some hv =>
           if hv.table = t.name then
             { h.opts t.optionsRef with group := some c, having := some hv }
           else { h.opts t.optionsRef with group := some c }
         | none => { h.opts t.optionsRef with group := some c }))
    else none
  | none => none

/-- The receiver's own dict cells read the same after the call as before it. -/
def preservesCells (h : Heap) (t : TableRef) (r : Option (Heap × TableRef)) :
    Prop :=
  r.map (fun p => (p.1.opts t.optionsRef, p.1.cols t.columnsRef)) =
    r.map (fun _ => (h.opts t.optionsRef, h.cols t.columnsRef))

/-- Whether `needle` occurs at the head of `hay`. -/
def isPrefixL (needle hay : List Char) : Bool :=
  match needle, hay with
  | [], _ => true
  | _ :: _, [] => false
  | a :: as, b :: bs => a == b && isPrefixL as bs

/-- Whether `needle` occurs anywhere in `hay`. -/
def containsL (needle hay : List Char) : Bool :=
  match hay with
  | [] => isPrefixL needle []
  | _ :: rest => isPrefixL needle hay || containsL needle rest

/-- Whether the statement string `hay` contains `needle` as a substring. -/
def strContains (hay needle : String) : Bool :=
  containsL needle.data hay.data

/-- Modelled from the spec: the "correctly quoted/escaped" SQL string literal
of §4.1/§8 — the underlying engine is SQLite, whose string literals are
single-quoted with embedded single quotes doubled. -/
def specSqlStringLit (s : String) : String :=
  String.mk ('\'' :: s.data.flatMap
    (fun c => if c = '\'' then ['\'', '\''] else [c]) ++ ['\''])

/-!
Helper lemmas shared by several claims.
-/

/-- A flatMap whose function is the singleton on every element of the list is
the identity. -/
theorem flatMap_singleton_id {α : Type} (f : α → List α) (l : List α)
    (h : ∀ c ∈ l, f c = [c]) : l.flatMap f = l := by
  induction l with
  | nil => rfl
  | cons c cs ih =>
    rw [List.flatMap_cons, h c (by simp),
      ih (fun d hd => h d (List.mem_cons_of_mem _ hd))]
    rfl

/-- On strings free of quotes and backslashes, Python `repr` and the SQL
string literal coincide (both are plain single-quoting). -/
theorem pyStrRepr_eq_specSqlStringLit (s : String) (hq : '\'' ∉ s.data)
    (hb : '\\' ∉ s.data) : pyStrRepr s = specSqlStringLit s := by
  have h2 : s.data.flatMap escSingle = s.data := by
    apply flatMap_singleton_id
    intro c hc
    unfold escSingle
    rw [if_neg (by rintro rfl; exact hb hc), if_neg (by rintro rfl; exact hq hc)]
  have h3 : s.data.flatMap (fun c => if c = '\'' then ['\'', '\''] else [c]) =
      s.data := by
    apply flatMap_singleton_id
    intro c hc
    rw [if_neg (by rintro rfl; exact hq hc)]
  unfold pyStrRepr specSqlStringLit
  rw [if_neg (by simp [strHas, hq]), h2, h3]

/-- A Text-typed first operand makes the literal path of `Column.operate`
succeed on any second operand: `str(x)` never fails. -/
theorem operateLit1_str_isSome (a : Column) (x : Operand)
    (tpl : String → String → String) (chk : Bool) (ha : a.type = PyType.str) :
    (operateLit1 a x tpl chk).isSome = true := by
  unfold operateLit1
  rw [ha]
  simp only [coerce]
  split <;> rfl

/-- When both operands of `Column.operate` are `Column`s, the call succeeds
iff the operands have equal type and table, or the first operand is
Text-typed (the literal-coercion path then stringifies the second `Column`). -/
theorem operate_col_col_isSome (a b : Column) (tpl : String → String → String)
    (chk : Bool) :
    (Column.operate (.col a) (.col b) tpl chk).isSome = true ↔
      (a.type = b.type ∧ a.table = b.table) ∨ a.type = PyType.str := by
  by_cases h : a.type = b.type ∧ a.table = b.table
  · simp [Column.operate, h]
  · simp only [Column.operate, if_neg h]
    cases ha : a.type with
    | int =>
      rw [ha] at h
      unfold operateLit1
      rw [ha]
      simp [coerce, h]
    | float =>
      rw [ha] at h
      unfold operateLit1
      rw [ha]
      simp [coerce, h]
    | str =>
      simp [operateLit1_str_isSome a (.col b) tpl chk ha]

/-- An integer literal as second operand always combines: `int`, `float` and
`str` all accept a Python int. -/
theorem operate_col_int_isSome (a : Column) (n : Int)
    (tpl : String → String → String) (chk : Bool) :
    (Column.operate (.col a) (.intL n) tpl chk).isSome = true := by
  show (operateLit1 a (.intL n) tpl chk).isSome = true
  cases ha : a.type with
  | str => exact operateLit1_str_isSome a (.intL n) tpl chk ha
  | int =>
    unfold operateLit1
    rw [ha]
    simp only [coerce]
    split <;> rfl
  | float =>
    unfold operateLit1
    rw [ha]
    simp only [coerce]
    split <;> rfl

/-!
Claims.
-/

/-- C1 — the claim says `formulate` renders `LIMIT min(L, M)` when the view
persists limit `L` and the override carries limit `M`. The code computes the
`min` but immediately overwrites it with the persisted limit (missing `else`),
so with `L = 5`, `M = 3` the statement contains `LIMIT 5` and not
`LIMIT min(3, 5) = LIMIT 3`. -/
theorem C1_limit_override_ignored :
    dbTable.formulate
        ⟨"R", [("a", ⟨"a", "R", PyType.int⟩)],
          ⟨some 5, none, none, none, none⟩, none⟩
        ⟨some 3, none, none, none, none, none⟩ =
      some "SELECT a FROM R    LIMIT 5" ∧
    strContains "SELECT a FROM R    LIMIT 5"
        ("LIMIT " ++ toString (min (3 : Int) 5)) = false := by
  constructor
  · rfl
  · decide

/-- C2 — the claim says `formulate` renders the `AND` of the persisted and the
override predicates. The code computes the `AND`-merged clause but immediately
overwrites it with the persisted clause (missing `else`), so the override
predicate `(b < 2)` does not occur in the rendered statement at all. -/
theorem C2_where_override_ignored :
    dbTable.formulate
        ⟨"R", [("a", ⟨"a", "R", PyType.int⟩)],
          ⟨none, some ⟨"(a > 1)", "R", PyType.int⟩, none, none, none⟩, none⟩
        ⟨none, some ⟨"(b < 2)", "R", PyType.int⟩, none, none, none, none⟩ =
      some "SELECT a FROM R WHERE (a > 1)   " ∧
    strContains "SELECT a FROM R WHERE (a > 1)   " "(b < 2)" = false := by
  constructor
  · rfl
  · decide

/-- C3 (counterexample) — combining the Text-typed column `a` of table `R`
with the column `b` of a different table `S` through `+` does not raise: the
literal-coercion path stringifies the foreign column and silently returns a
combined Expression, refuting "always fails, never silently succeeds". -/
theorem C3_counterexample :
    Column.operate (.col ⟨"a", "R", PyType.str⟩) (.col ⟨"b", "S", PyType.int⟩)
        Op.add.tpl Op.add.strcheck =
      some ⟨"(a || 'b')", "R", PyType.str⟩ ∧
    ("R" : String) ≠ "S" := by
  constructor
  · rfl
  · decide

/-- C3 (amended) — combining two Expressions of different base relations with
any operator raises an error exactly when the first operand is not Text-typed;
a Text-typed first operand silently succeeds, embedding the second
Expression's fragment as a quoted string literal. -/
theorem C3_cross_view_combination (a b : Column) (op : Op)
    (hne : a.table ≠ b.table) :
    (Column.operate (.col a) (.col b) op.tpl op.strcheck).isSome = true ↔
      a.type = PyType.str := by
  rw [operate_col_col_isSome]
  simp [hne]

/-- C3 (witness) — the amended theorem applied at Integer-typed `c` of `R`
against `d` of `S`: the combination errors out. -/
theorem C3_witness :
    (("R" : String) ≠ "S") ∧
    ((Column.operate (.col ⟨"c", "R", PyType.int⟩) (.col ⟨"d", "S", PyType.int⟩)
        Op.mul.tpl Op.mul.strcheck).isSome = true ↔
      PyType.int = PyType.str) :=
  ⟨by decide,
   C3_cross_view_combination ⟨"c", "R", PyType.int⟩ ⟨"d", "S", PyType.int⟩
     Op.mul (by decide)⟩

/-- C4 (counterexample) — `apply` on a Text-typed Expression with aggregate
name `COUNT` keeps the Text type tag; the claim demands Integer. -/
theorem C4_counterexample :
    (Column.apply ⟨"b", "R", PyType.str⟩ "COUNT").type = PyType.str ∧
    PyType.str ≠ PyType.int := by
  constructor
  · rfl
  · decide

/-- C4 (amended) — `apply(e, f)` yields the fragment `f(e's fragment)` and
always copies `e`'s type tag, with no special case for `COUNT`. -/
theorem C4_apply_preserves_type (e : Column) (f : String) :
    (e.apply f).colexpr = f ++ "(" ++ e.colexpr ++ ")" ∧
    (e.apply f).table = e.table ∧
    (e.apply f).type = e.type ∧
    (e.apply "COUNT").type = e.type :=
  ⟨rfl, rfl, rfl, rfl⟩

/-- C5 (counterexample) — `&` on an Integer-typed column and the raw integer
literal `7` succeeds through the literal-coercion path, refuting both
"Boolean-typed operands only" (no Boolean tag exists in the source) and "the
literal-coercion path is not performed". -/
theorem C5_counterexample :
    Column.operate (.col ⟨"a", "R", PyType.int⟩) (.intL 7) Op.andOp.tpl false =
      some ⟨"(a AND 7)", "R", PyType.int⟩ := by
  rfl

/-- C5 (amended) — `and`/`or` behave like every other non-`strcheck` operator:
two Expression operands combine iff their type tags and tables agree (or the
first operand is Text-typed, via stringification), and a raw integer literal
operand is always accepted through the literal-coercion path. -/
theorem C5_logical_ops_use_general_path (a b : Column) (n : Int) :
    ((Column.operate (.col a) (.col b) Op.andOp.tpl false).isSome = true ↔
      (a.type = b.type ∧ a.table = b.table) ∨ a.type = PyType.str) ∧
    (Column.operate (.col a) (.intL n) Op.andOp.tpl false).isSome = true ∧
    ((Column.operate (.col a) (.col b) Op.orOp.tpl false).isSome = true ↔
      (a.type = b.type ∧ a.table = b.table) ∨ a.type = PyType.str) ∧
    (Column.operate (.col a) (.intL n) Op.orOp.tpl false).isSome = true :=
  ⟨operate_col_col_isSome a b Op.andOp.tpl false,
   operate_col_int_isSome a n Op.andOp.tpl false,
   operate_col_col_isSome a b Op.orOp.tpl false,
   operate_col_int_isSome a n Op.orOp.tpl false⟩

/-- C6 (counterexample) — combining the Text column `a` with the string
literal containing a quote, `x'y`, renders the literal through Python `repr`,
which switches to double quotes: the fragment is not the single-quoted,
quote-doubled SQL literal the claim requires. -/
theorem C6_counterexample :
    Column.operate (.col ⟨"a", "R", PyType.str⟩) (.strL "x'y") Op.add.tpl
        Op.add.strcheck =
      some ⟨"(a || \"x'y\")", "R", PyType.str⟩ ∧
    ("(a || \"x'y\")" : String) ≠ "(" ++ "a" ++ " || " ++
      specSqlStringLit "x'y" ++ ")" := by
  constructor
  · rfl
  · decide

/-- C6 (amended) — for Text-typed `e` and a printable string literal `s`
containing neither a quote nor a backslash, the combination succeeds for every
operator and the rendered fragment embeds `s` as the correctly quoted SQL
string literal (on that quote-free domain Python `repr` and SQL quoting
coincide); outside it — see the counterexample — the embedding is Python
`repr`, which is not SQL escaping. -/
theorem C6_text_literal_quoting (e : Column) (s : String) (op : Op)
    (hty : e.type = PyType.str) (hq : '\'' ∉ s.data) (hb : '\\' ∉ s.data)
    (_hprint : ∀ c ∈ s.data, 32 ≤ c.toNat ∧ c.toNat ≤ 126) :
    Column.operate (.col e) (.strL s) op.tpl op.strcheck =
      some ⟨if op.strcheck then
              "(" ++ e.colexpr ++ " || " ++ specSqlStringLit s ++ ")"
            else op.tpl e.colexpr (specSqlStringLit s),
        e.table, PyType.str⟩ := by
  show operateLit1 e (.strL s) op.tpl op.strcheck = _
  have hrep : pyRepr (.strL s) = specSqlStringLit s :=
    pyStrRepr_eq_specSqlStringLit s hq hb
  unfold operateLit1
  rw [hty]
  cases hs : op.strcheck with
  | true => simp [coerce, pyStr, hrep]
  | false => simp [coerce, pyStr, hrep]

/-- C6 (witness) — the amended theorem at `e = a : TEXT of R`, `s = "xy"`,
operator `+`. -/
theorem C6_witness :
    ('\'' ∉ "xy".data ∧ '\\' ∉ "xy".data) ∧
    Column.operate (.col ⟨"a", "R", PyType.str⟩) (.strL "xy") Op.add.tpl
        Op.add.strcheck =
      some ⟨if Op.add.strcheck then
              "(" ++ "a" ++ " || " ++ specSqlStringLit "xy" ++ ")"
            else Op.add.tpl "a" (specSqlStringLit "xy"),
        "R", PyType.str⟩ :=
  ⟨⟨by decide, by decide⟩,
   C6_text_literal_quoting ⟨"a", "R", PyType.str⟩ "xy" Op.add rfl (by decide)
     (by decide) (by decide)⟩

/-- The memoized-count freshness property of one combinator result: the
returned view (when the call succeeds) has `length = None`, and its first
`__len__` evaluates the view's own counting query through the oracle. -/
def freshCount (ex : String → Int) (r : Option dbTable) : Prop :=
  r.map (fun d => (d.length, d.len ex)) =
    r.map (fun d => ((none : Option Int), (d.lenQuery).map ex))

/-- A result whose table has an unset memoized count satisfies `freshCount`. -/
theorem freshCount_of_length_none (ex : String → Int) (r : Option dbTable)
    (h : ∀ d, r = some d → d.length = none) : freshCount ex r := by
  cases r with
  | none => rfl
  | some d =>
    have hd : d.length = none := h d rfl
    simp [freshCount, dbTable.len, hd]

/-- Every successful `select` returns a table with `length = None`. -/
theorem select_length_none (t : dbTable) (names : List String) :
    ∀ d, t.select names = some d → d.length = none := by
  intro d hd
  unfold dbTable.select at hd
  split at hd
  · rw [Option.some_inj] at hd
    subst hd; rfl
  · cases hd

/-- Every successful `where` returns a table with `length = None`. -/
theorem where_length_none (t : dbTable) (c : Column) :
    ∀ d, t.where_ c = some d → d.length = none := by
  intro d hd
  unfold dbTable.where_ at hd
  split at hd
  · split at hd
    · rw [Option.map_eq_some'] at hd
      obtain ⟨x, _, heq⟩ := hd
      rw [← heq]
    · rw [Option.some_inj] at hd
      subst hd; rfl
  · cases hd

/-- Every successful `sort` returns a table with `length = None`. -/
theorem sort_length_none (t : dbTable) (sc : String ⊕ Column) (b : Bool) :
    ∀ d, t.sort sc b = some d → d.length = none := by
  rcases sc with s | c
  · rcases hres : dictGet? t.columns s with _ | c
    · simp [dbTable.sort, hres]
    · by_cases htab : c.table = t.name <;> simp [dbTable.sort, hres, htab]
  · by_cases htab : c.table = t.name <;> simp [dbTable.sort, htab]

/-- Every successful `group` returns a table with `length = None`. -/
theorem group_length_none (t : dbTable) (gc : String ⊕ Column)
    (hv : Option Column) (cl : Option String) :
    ∀ d, t.group gc hv cl = some d → d.length = none := by
  rcases gc with s | c
  · rcases hres : dictGet? t.columns s with _ | c
    · simp [dbTable.group, hres]
    · by_cases htab : c.table = t.name
      · rcases hv with _ | h
        · rcases cl with _ | f <;> simp [dbTable.group, hres, htab]
        · by_cases hh : h.table = t.name <;> rcases cl with _ | f <;>
            simp [dbTable.group, hres, htab, hh]
      · simp [dbTable.group, hres, htab]
  · by_cases htab : c.table = t.name
    · rcases hv with _ | h
      · rcases cl with _ | f <;> simp [dbTable.group, htab]
      · by_cases hh : h.table = t.name <;> rcases cl with _ | f <;>
          simp [dbTable.group, htab, hh]
    · simp [dbTable.group, htab]

/-- C10 — every view a combinator returns has its memoized row count reset to
the unset state, so its first `__len__` runs the derived view's own counting
query and never reuses the parent's cached count. -/
theorem C10_combinators_reset_memoized_count (t : dbTable)
    (names : List String) (c : Column) (sc : String ⊕ Column) (b : Bool)
    (gc : String ⊕ Column) (hv : Option Column) (cl : Option String)
    (ex : String → Int) :
    freshCount ex (t.select names) ∧ freshCount ex (t.where_ c) ∧
    freshCount ex (t.sort sc b) ∧ freshCount ex (t.group gc hv cl) :=
  ⟨freshCount_of_length_none ex _ (select_length_none t names),
   freshCount_of_length_none ex _ (where_length_none t c),
   freshCount_of_length_none ex _ (sort_length_none t sc b),
   freshCount_of_length_none ex _ (group_length_none t gc hv cl)⟩

/-- A fresh allocation leaves every address below `next` untouched. -/
theorem mkTableH_preserves (h : Heap) (nm : String)
    (cd : List (String × Column)) (od : Options) (i j : Nat)
    (hi : i < h.next) (hj : j < h.next) :
    (mkTableH h nm cd od).1.opts i = h.opts i ∧
    (mkTableH h nm cd od).1.cols j = h.cols j := by
  constructor
  · show (if i = h.next then od else h.opts i) = h.opts i
    rw [if_neg (Nat.ne_of_lt hi)]
  · show (if j = h.next + 1 then cd else h.cols j) = h.cols j
    rw [if_neg (by omega)]

/-- `preservesCells` holds of the empty result. -/
theorem preservesCells_none (h : Heap) (t : TableRef) :
    preservesCells h t none := rfl

/-- `preservesCells` holds of a successful call returning a freshly allocated
table, provided the receiver's cells sit below the allocation frontier. -/
theorem preservesCells_some_mk (h : Heap) (t : TableRef)
    (ho : t.optionsRef < h.next) (hc : t.columnsRef < h.next)
    (nm : String) (cd : List (String × Column)) (od : Options) :
    preservesCells h t (some (mkTableH h nm cd od)) := by
  unfold preservesCells
  simp only [Option.map_some']
  obtain ⟨h1, h2⟩ :=
    mkTableH_preserves h nm cd od t.optionsRef t.columnsRef ho hc
  rw [h1, h2]

/-- `preservesCells` holds of an optional value mapped into a fresh
allocation. -/
theorem preservesCells_map (h : Heap) (t : TableRef)
    (ho : t.optionsRef < h.next) (hc : t.columnsRef < h.next)
    {α : Type} (o : Option α) (nm : α → String)
    (cd : α → List (String × Column)) (od : α → Options) :
    preservesCells h t
      (o.map (fun x => mkTableH h (nm x) (cd x) (od x))) := by
  cases o with
  | none => rfl
  | some x => exact preservesCells_some_mk h t ho hc (nm x) (cd x) (od x)

/-- `selectH` never writes into the receiver's cells. -/
theorem selectH_preserves (h : Heap) (t : TableRef) (names : List String)
    (ho : t.optionsRef < h.next) (hc : t.columnsRef < h.next) :
    preservesCells h t (selectH h t names) := by
  unfold selectH
  split
  · exact preservesCells_some_mk h t ho hc _ _ _
  · rfl

/-- `whereH` never writes into the receiver's cells. -/
theorem whereH_preserves (h : Heap) (t : TableRef) (c : Column)
    (ho : t.optionsRef < h.next) (hc : t.columnsRef < h.next) :
    preservesCells h t (whereH h t c) := by
  unfold whereH
  split
  · exact preservesCells_map h t ho hc _ (fun _ => t.name)
      (fun _ => h.cols t.columnsRef)
      (fun w => { h.opts t.optionsRef with whereC := some w })
  · rfl

/-- `sortH` never writes into the receiver's cells. -/
theorem sortH_preserves (h : Heap) (t : TableRef) (sc : String ⊕ Column)
    (b : Bool) (ho : t.optionsRef < h.next) (hc : t.columnsRef < h.next) :
    preservesCells h t (sortH h t sc b) := by
  unfold sortH
  split
  · split
    · exact preservesCells_some_mk h t ho hc _ _ _
    · rfl
  · rfl

/-- `groupH` never writes into the receiver's cells. -/
theorem groupH_preserves (h : Heap) (t : TableRef) (gc : String ⊕ Column)
    (hv : Option Column) (cl : Option String)
    (ho : t.optionsRef < h.next) (hc : t.columnsRef < h.next) :
    preservesCells h t (groupH h t gc hv cl) := by
  unfold groupH
  split
  · split
    · exact preservesCells_some_mk h t ho hc _ _ _
    · rfl
  · rfl

/-- C9 — every combinator (`select`, `where`, `sort`, `group`) leaves the
receiver's own options dict and columns dict unchanged: the new view is built
from freshly allocated copies, never by mutating the receiver in place. -/
theorem C9_combinators_copy_on_write (h : Heap) (t : TableRef)
    (names : List String) (c : Column) (sc : String ⊕ Column) (b : Bool)
    (gc : String ⊕ Column) (hv : Option Column) (cl : Option String)
    (ho : t.optionsRef < h.next) (hc : t.columnsRef < h.next) :
    preservesCells h t (selectH h t names) ∧
    preservesCells h t (whereH h t c) ∧
    preservesCells h t (sortH h t sc b) ∧
    preservesCells h t (groupH h t gc hv cl) :=
  ⟨selectH_preserves h t names ho hc,
   whereH_preserves h t c ho hc,
   sortH_preserves h t sc b ho hc,
   groupH_preserves h t gc hv cl ho hc⟩

/-- A two-cell heap holding one base table, for the C9 witness. -/
def exHeap : Heap :=
  ⟨fun _ => emptyOptions, fun _ => [("a", ⟨"a", "R", PyType.int⟩)], 2⟩

/-- The base table sitting on `exHeap`. -/
def exTable : TableRef := ⟨"R", 0, 1, none⟩

/-- C9 (witness) — the copy-on-write theorem applied on the concrete two-cell
heap, one call per combinator. -/
theorem C9_witness :
    (exTable.optionsRef < exHeap.next ∧ exTable.columnsRef < exHeap.next) ∧
    (preservesCells exHeap exTable (selectH exHeap exTable ["a"]) ∧
     preservesCells exHeap exTable (whereH exHeap exTable ⟨"a", "R", PyType.int⟩) ∧
     preservesCells exHeap exTable (sortH exHeap exTable (.inl "a") false) ∧
     preservesCells exHeap exTable (groupH exHeap exTable (.inl "a") none none)) :=
  ⟨⟨by decide, by decide⟩,
   C9_combinators_copy_on_write exHeap exTable ["a"] ⟨"a", "R", PyType.int⟩
     (.inl "a") false (.inl "a") none none (by decide) (by decide)⟩

/-- C7 (counterexample) — on a view that already persists a filter `w`, the
chained form renders `WHERE ((w AND p) AND q)` while the conjunction form
renders `WHERE (w AND (p AND q))`: logically equivalent bracketings but not
"the same string", refuting the claim's universally quantified string
equality. -/
theorem C7_counterexample :
    ((dbTable.where_
        ⟨"R", [("a", ⟨"a", "R", PyType.int⟩)],
          ⟨none, some ⟨"w", "R", PyType.int⟩, none, none, none⟩, none⟩
        ⟨"p", "R", PyType.int⟩).bind
      (fun t1 => t1.where_ ⟨"q", "R", PyType.int⟩)).map
        (fun t2 => t2.formulate emptyF) =
      some (some "SELECT a FROM R WHERE ((w AND p) AND q)   ") ∧
    ((Column.operate (.col ⟨"p", "R", PyType.int⟩)
        (.col ⟨"q", "R", PyType.int⟩) Op.andOp.tpl false).bind
      (fun pq => dbTable.where_
        ⟨"R", [("a", ⟨"a", "R", PyType.int⟩)],
          ⟨none, some ⟨"w", "R", PyType.int⟩, none, none, none⟩, none⟩
        pq)).map (fun t2 => t2.formulate emptyF) =
      some (some "SELECT a FROM R WHERE (w AND (p AND q))   ") ∧
    ("SELECT a FROM R WHERE ((w AND p) AND q)   " : String) ≠
      "SELECT a FROM R WHERE (w AND (p AND q))   " := by
  refine ⟨rfl, rfl, by decide⟩

/-- C7 (amended) — on a view with no persisted filter, `where(p)` then
`where(q)` produces exactly the same view as `where(p & q)` — in particular
`formulate` renders the identical statement, whose `WHERE` predicate is the
`AND` of the two; on a view that already persists a filter the two forms
render the same conjuncts with different bracketing (see the counterexample). -/
theorem C7_where_chain_merge (t : dbTable) (p q : Column)
    (hp : p.table = t.name) (hq : q.table = t.name) (hty : p.type = q.type)
    (hnw : t.options.whereC = none) :
    ∃ pq, Column.operate (.col p) (.col q) Op.andOp.tpl false = some pq ∧
      pq.colexpr = "(" ++ p.colexpr ++ " AND " ++ q.colexpr ++ ")" ∧
      (t.where_ p).bind (fun t1 => t1.where_ q) = t.where_ pq ∧
      ((t.where_ p).bind (fun t1 => t1.where_ q)).map
          (fun t2 => t2.formulate emptyF) =
        (t.where_ pq).map (fun t2 => t2.formulate emptyF) := by
  have hop : Column.operate (.col p) (.col q) Op.andOp.tpl false =
      some ⟨"(" ++ p.colexpr ++ " AND " ++ q.colexpr ++ ")",
        p.table, p.type⟩ := by
    show (if p.type = q.type ∧ p.table = q.table then
        some ⟨Op.andOp.tpl p.colexpr q.colexpr, p.table, p.type⟩
      else operateLit1 p (.col q) Op.andOp.tpl false) = _
    rw [if_pos ⟨hty, hp.trans hq.symm⟩]
    rfl
  have h3 : (t.where_ p).bind (fun t1 => t1.where_ q) =
      t.where_ ⟨"(" ++ p.colexpr ++ " AND " ++ q.colexpr ++ ")",
        p.table, p.type⟩ := by
    obtain ⟨nm, cols, opts, len⟩ := t
    obtain ⟨l, wC, gC, hC, sC⟩ := opts
    dsimp only at hnw hp hq
    subst hnw
    simp [dbTable.where_, hp, hq, hop]
  exact ⟨_, hop, rfl, h3, by rw [h3]⟩

/-- C7 (witness) — the amended theorem on a concrete base view of `R` with an
empty options dict and the two Integer predicates `p`, `q`. -/
theorem C7_witness :
    ((Column.mk "p" "R" PyType.int).table = "R" ∧
     (Column.mk "q" "R" PyType.int).table = "R" ∧
     emptyOptions.whereC = none) ∧
    ∃ pq, Column.operate (.col ⟨"p", "R", PyType.int⟩)
        (.col ⟨"q", "R", PyType.int⟩) Op.andOp.tpl false = some pq ∧
      pq.colexpr = "(" ++ "p" ++ " AND " ++ "q" ++ ")" ∧
      ((dbTable.mk "R" [("a", ⟨"a", "R", PyType.int⟩)] emptyOptions
          none).where_ ⟨"p", "R", PyType.int⟩).bind
        (fun t1 => t1.where_ ⟨"q", "R", PyType.int⟩) =
        (dbTable.mk "R" [("a", ⟨"a", "R", PyType.int⟩)] emptyOptions
          none).where_ pq ∧
      (((dbTable.mk "R" [("a", ⟨"a", "R", PyType.int⟩)] emptyOptions
          none).where_ ⟨"p", "R", PyType.int⟩).bind
        (fun t1 => t1.where_ ⟨"q", "R", PyType.int⟩)).map
          (fun t2 => t2.formulate emptyF) =
        ((dbTable.mk "R" [("a", ⟨"a", "R", PyType.int⟩)] emptyOptions
          none).where_ pq).map (fun t2 => t2.formulate emptyF) :=
  ⟨⟨rfl, rfl, rfl⟩,
   C7_where_chain_merge
     (dbTable.mk "R" [("a", ⟨"a", "R", PyType.int⟩)] emptyOptions none)
     ⟨"p", "R", PyType.int⟩ ⟨"q", "R", PyType.int⟩ rfl rfl rfl rfl⟩

/-- Dict lookup totalized under a presence guard (used only where the key is
known to be present). -/
def cget (src : List (String × Column)) (n : String) : Column :=
  (dictGet? src n).getD ⟨"", "", PyType.int⟩

/-- Key membership after appending a single binding. -/
theorem dictHasKey_append_single (d : List (String × Column)) (n m : String)
    (c : Column) :
    dictHasKey (d ++ [(n, c)]) m = (dictHasKey d m || (n == m)) := by
  unfold dictHasKey dictGet?
  rw [List.find?_append]
  cases hd : d.find? (fun p => p.1 == m) with
  | some x => rfl
  | none =>
    cases hnm : (n == m) with
    | true =>
      rw [List.find?_cons_of_pos _ (by simpa using hnm)]
      rfl
    | false =>
      rw [List.find?_cons_of_neg _ (by simp [hnm])]
      rfl

/-- The fold of `buildDict`, on distinct present names disjoint from the
accumulator, appends one binding per name in order. -/
theorem buildDict_go (src : List (String × Column)) (names : List String) :
    ∀ acc : List (String × Column), names.Nodup →
      (∀ n ∈ names, dictHasKey src n = true) →
      (∀ n ∈ names, dictHasKey acc n = false) →
      names.foldl (fun acc n =>
        match dictGet? src n with
        | some c => dictInsert acc n c
        | none => acc) acc =
      acc ++ names.map (fun n => (n, cget src n)) := by
  induction names with
  | nil => intro acc _ _ _; simp
  | cons n ns ih =>
    intro acc hnd hall hdisj
    have hsome : (dictGet? src n).isSome = true := hall n (List.mem_cons_self n ns)
    obtain ⟨c, hc⟩ := Option.isSome_iff_exists.mp hsome
    have hkey : dictHasKey acc n = false := hdisj n (List.mem_cons_self n ns)
    have hins : dictInsert acc n c = acc ++ [(n, c)] := by
      unfold dictInsert
      rw [if_neg (by simp [hkey])]
    have hdisj' : ∀ m ∈ ns, dictHasKey (acc ++ [(n, c)]) m = false := by
      intro m hm
      rw [dictHasKey_append_single]
      have h1 : dictHasKey acc m = false := hdisj m (List.mem_cons_of_mem _ hm)
      have h2 : (n == m) = false := by
        have hne : n ≠ m := by
          intro he
          subst he
          exact (List.nodup_cons.mp hnd).1 hm
        simp [hne]
      rw [h1, h2]
      rfl
    have hcg : cget src n = c := by
      unfold cget
      rw [hc]
      rfl
    rw [List.foldl_cons]
    simp only [hc]
    rw [hins,
      ih (acc ++ [(n, c)]) hnd.of_cons
        (fun m hm => hall m (List.mem_cons_of_mem _ hm)) hdisj',
      List.map_cons, hcg]
    simp

/-- `buildDict` on distinct, present names is the ordered binding list. -/
theorem buildDict_eq_map (src : List (String × Column)) (names : List String)
    (hnd : names.Nodup) (hall : ∀ n ∈ names, dictHasKey src n = true) :
    buildDict src names = names.map (fun n => (n, cget src n)) := by
  have h := buildDict_go src names [] hnd hall (fun n _ => rfl)
  simpa using h

/-- Lookup in an ordered binding list over distinct names. -/
theorem dictGet_map_self (g : String → Column) :
    ∀ (names : List String), names.Nodup →
      ∀ m ∈ names, dictGet? (names.map (fun n => (n, g n))) m = some (g m) := by
  intro names
  induction names with
  | nil => intro _ m hm; cases hm
  | cons n ns ih =>
    intro hnd m hm
    rw [List.map_cons]
    by_cases hnm : n = m
    · subst hnm
      unfold dictGet?
      rw [List.find?_cons_of_pos _ (by simp)]
      rfl
    · unfold dictGet?
      rw [List.find?_cons_of_neg _ (by simp [hnm])]
      have hm' : m ∈ ns := by
        cases hm with
        | head => exact absurd rfl hnm
        | tail _ h => exact h
      exact ih hnd.of_cons m hm'

/-- C8 (counterexample) — `select` with the duplicated name list
`["a", "a"]` (both occurrences present in the projection) yields a projection
map whose keys are `["a"]`, not "exactly those names in the given order":
Python dict keys collapse the duplicate. -/
theorem C8_counterexample :
    (dbTable.select
        ⟨"R", [("a", ⟨"a", "R", PyType.int⟩), ("b", ⟨"b", "R", PyType.int⟩)],
          emptyOptions, none⟩ ["a", "a"]).map
      (fun r => r.columns.map Prod.fst) = some ["a"] ∧
    (["a"] : List String) ≠ ["a", "a"] := by
  constructor
  · rfl
  · decide

/-- C8 (amended) — for every list of distinct names all present in the current
projection, `select` succeeds, the result's projection map holds exactly those
names in the given order, and re-selecting the same names returns the very
same view (idempotent on fixed input); a duplicated name list instead
collapses to its first occurrences (see the counterexample). -/
theorem C8_select_idempotent (t : dbTable) (names : List String)
    (hnd : names.Nodup) (hall : ∀ n ∈ names, dictHasKey t.columns n = true) :
    ∃ r, t.select names = some r ∧ r.columns.map Prod.fst = names ∧
      r.select names = some r := by
  have hguard : (names.all fun n => dictHasKey t.columns n) = true :=
    List.all_eq_true.mpr hall
  have hbd : buildDict t.columns names =
      names.map (fun n => (n, cget t.columns n)) :=
    buildDict_eq_map _ _ hnd hall
  refine ⟨⟨t.name, buildDict t.columns names, t.options, none⟩, ?_, ?_, ?_⟩
  · unfold dbTable.select
    rw [if_pos hguard]
  · rw [hbd, List.map_map]
    have hid : (Prod.fst ∘ fun n => (n, cget t.columns n)) = id := rfl
    rw [hid, List.map_id]
  · have hget : ∀ m ∈ names, dictGet? (buildDict t.columns names) m =
        some (cget t.columns m) := by
      intro m hm
      rw [hbd]
      exact dictGet_map_self _ names hnd m hm
    have hall2 : ∀ n ∈ names,
        dictHasKey (buildDict t.columns names) n = true := by
      intro n hn
      unfold dictHasKey
      rw [hget n hn]
      rfl
    have hbd2 : buildDict (buildDict t.columns names) names =
        buildDict t.columns names := by
      rw [buildDict_eq_map _ _ hnd hall2]
      have hmap :
          List.map (fun n => (n, cget (buildDict t.columns names) n)) names =
            List.map (fun n => (n, cget t.columns n)) names := by
        apply List.map_congr_left
        intro n hn
        have hcc : cget (buildDict t.columns names) n = cget t.columns n := by
          unfold cget
          rw [hget n hn]
          rfl
        rw [hcc]
      rw [hmap, ← hbd]
    unfold dbTable.select
    rw [if_pos (List.all_eq_true.mpr hall2)]
    rw [hbd2]

/-- C8 (witness) — the amended theorem on a two-column base table with the
reordered distinct name list `["b", "a"]`. -/
theorem C8_witness :
    (["b", "a"] : List String).Nodup ∧
    ∃ r, dbTable.select
        ⟨"R", [("a", ⟨"a", "R", PyType.int⟩), ("b", ⟨"b", "R", PyType.int⟩)],
          emptyOptions, none⟩ ["b", "a"] = some r ∧
      r.columns.map Prod.fst = ["b", "a"] ∧ r.select ["b", "a"] = some r :=
  ⟨by decide,
   C8_select_idempotent
     ⟨"R", [("a", ⟨"a", "R", PyType.int⟩), ("b", ⟨"b", "R", PyType.int⟩)],
       emptyOptions, none⟩ ["b", "a"] (by decide) (by decide)⟩
